import Mathlib

/-!
Verification of the httpclient library (package `httpclient`): a shallow
embedding of the request-execution pipeline of `src/httpclient.go`,
`src/retry.go`, the request options of `src/unnamed/part_000`, the retry
classifiers of `src/httpclient_test.go`, and the JSON/XML codec wrappers
(`src/unnamed/part_002`, `src/xmlclient.go`), together with theorems about
retry counts, error propagation, option application, gzip decoding, the
download path and configuration mutation.

Durations are nanoseconds as in Go's `time.Duration`; byte strings are
`String` (Go strings are byte strings); fallible Go functions return
`Except GoError`; the mutation of the `Client` struct is explicit state
passing; the network is an oracle giving the outcome of each exchange.
-/

set_option autoImplicit false

namespace HttpClient

/-- Durations in nanoseconds, as in Go `time.Duration`. -/
abbrev Duration := Nat

/-- DefaultTimeout from src/httpclient.go: `15 * time.Second`. -/
def DefaultTimeout : Duration := 15 * 1000000000

/-- Errors observable in the pipeline.  `netErr` models a Go error
implementing the `net.Error` interface, with its `Temporary()` flag;
`httpErr` models `*HTTPError` built as `&HTTPError{resp.StatusCode, resp.Status}`
(src/httpclient.go lines 161 and 226); `otherErr` is any other Go error,
identified by its message. -/
inductive GoError where
  | netErr (temporary : Bool) (msg : String)
  | httpErr (statusCode : Nat) (status : String)
  | otherErr (msg : String)
  deriving DecidableEq, Repr

/-- Modelled from the spec: the `Error() string` method of `HTTPError` is not
under src (only the construction sites are); per spec section 3 the error
"carries numeric status code and status text", so its message is modelled as
containing both.  The other constructors carry their message directly. -/
def GoError.errString : GoError → String
  | .netErr _ m => m
  | .httpErr code status => "http error: [" ++ toString code ++ ":" ++ status ++ "]"
  | .otherErr m => m

/-- The Go test `if ne, ok := err.(net.Error); ok && ne.Temporary()`
(src/retry.go line 21, src/httpclient_test.go line 163): only `netErr`
models a value implementing `net.Error`. -/
def GoError.isTemporaryNet : GoError → Bool
  | .netErr temporary _ => temporary
  | _ => false

/-- retrier.Action of the go-resiliency retrier library: the classifier's verdict. -/
inductive Action where
  | Succeed
  | Retry
  | Fail
  deriving DecidableEq, Repr

/-- Go `strings.Contains` on the underlying character lists. -/
def charsContain (pat : List Char) : List Char → Bool
  | [] => pat.isPrefixOf []
  | c :: rest => pat.isPrefixOf (c :: rest) || charsContain pat rest

/-- Go `strings.Contains s pat`. -/
def strContains (s pat : String) : Bool :=
  charsContain pat.toList s.toList

/-- HTTP2RetriableError from src/httpclient_test.go lines 145-149. -/
def HTTP2RetriableError : List String :=
  ["CONNECT_ERROR", "PROTOCOL_ERROR", "STREAM_CLOSED"]

/-- RetryClassifier.Classify from src/httpclient_test.go lines 158-175: nil is
Succeed, a temporary net error is Retry, an error whose text contains one of
the HTTP2 retriable substrings is Retry, anything else is Fail.  The work
closure passed to the retrier returns `nil` on success, so the classifier's
input is `Option GoError`. -/
def RetryClassifier.Classify : Option GoError → Action
  | none => .Succeed
  | some e =>
    if e.isTemporaryNet then .Retry
    else if HTTP2RetriableError.any (fun pat => strContains e.errString pat) then .Retry
    else .Fail

/-- DefaultRetryClassifier from src/httpclient_test.go line 152, the classifier
installed by `Client.SetRetry` in src/httpclient.go line 62. -/
def DefaultRetryClassifier : Option GoError → Action :=
  RetryClassifier.Classify

/-- Retry.Classify from src/retry.go lines 16-26 (also retryClassifer.Classify,
src/httpclient_test.go lines 192-202): nil is Succeed, a temporary net error
is Retry, every other error is Fail. -/
def Retry.Classify : Option GoError → Action
  | none => .Succeed
  | some e => if e.isTemporaryNet then .Retry else .Fail

/-- Header collection; Go's `http.Header.Set` replaces every value stored under
the key (MIME canonicalization of header keys is abstracted: keys compare as
given, which is exact for the string-identical keys the claims are about). -/
abbrev Headers := List (String × String)

/-- Go `req.Header.Set key value`: drop every pair under `key`, store the single
new value. -/
def headerSet (h : Headers) (key value : String) : Headers :=
  h.filter (fun kv => kv.1 != key) ++ [(key, value)]

/-- Go `req.Header.Get key`. -/
def headerGet (h : Headers) (key : String) : Option String :=
  (h.find? (fun kv => kv.1 == key)).map Prod.snd

/-- Go `url.Values`: a map from key to the list of values for that key,
modelled as an association list with unique keys. -/
abbrev Values := List (String × List String)

/-- Go `q.Add key value`: append `value` to the values of `key`, creating the
key if absent. -/
def valuesAdd (q : Values) (key value : String) : Values :=
  if q.any (fun kv => kv.1 == key) then
    q.map (fun kv => if kv.1 == key then (kv.1, kv.2 ++ [value]) else kv)
  else
    q ++ [(key, [value])]

/-- Insert one keyed entry into a list that is already ordered by key
(the sorting step of Go `url.Values.Encode`). -/
def insertByKey (p : String × List String) : Values → Values
  | [] => [p]
  | q :: rest => if p.1 ≤ q.1 then p :: q :: rest else q :: insertByKey p rest

/-- Sort a `Values` by key (Go `url.Values.Encode` sorts the keys). -/
def sortByKey (q : Values) : Values :=
  q.foldr insertByKey []

/-- Go `url.Values.Encode` followed by parsing positions: the encoded query as
the ordered list of `key=value` pairs, keys in sorted order, the values of one
key kept in insertion order. -/
def valuesEncode (q : Values) : List (String × String) :=
  ((sortByKey q).map (fun kv => kv.2.map (fun v => (kv.1, v)))).flatten

/-- Go `req.URL.Query()` (via `url.ParseQuery` of the raw query): group the
encoded pairs back into a `Values`, in order of appearance. -/
def parseQuery (raw : List (String × String)) : Values :=
  raw.foldl (fun q p => valuesAdd q p.1 p.2) []

/-- The part of Go `url.URL` the pipeline touches: the raw query, kept as the
list of encoded `key=value` pairs. -/
structure URL where
  rawQuery : List (String × String)
  deriving DecidableEq, Repr

/-- The part of Go `http.Request` the pipeline touches. -/
structure Request where
  method : String
  url : URL
  headers : Headers
  body : String
  deriving DecidableEq, Repr

/-- RequestOption from src/unnamed/part_000 line 9: a fallible mutation of the
in-flight request, modelled as explicit state passing. -/
def RequestOption : Type :=
  Request → Except GoError Request

/-- SetHeader from src/unnamed/part_000 lines 12-17. -/
def SetHeader (key value : String) : RequestOption :=
  fun req => .ok { req with headers := headerSet req.headers key value }

/-- SetTypeXML from src/unnamed/part_000 lines 20-22. -/
def SetTypeXML : RequestOption :=
  SetHeader "Content-Type" "application/xml; charset=UTF-8"

/-- SetTypeJSON from src/unnamed/part_000 lines 25-27. -/
def SetTypeJSON : RequestOption :=
  SetHeader "Content-Type" "application/json; charset=UTF-8"

/-- SetTypeForm from src/unnamed/part_000 lines 30-32. -/
def SetTypeForm : RequestOption :=
  SetHeader "Content-Type" "application/x-www-form-urlencoded"

/-- SetQuery from src/unnamed/part_000 lines 35-46: parse the current raw
query, `Add` every `(key, value)` pair of the given values, re-encode.  Go
iterates the `values` map in unspecified order; the model iterates the
association list in list order (the difference is unobservable after the
key-sorting `Encode` when, as for `url.Values` built by `Add`, keys are
unique). -/
def SetQuery (values : Values) : RequestOption :=
  fun req =>
    let q := parseQuery req.url.rawQuery
    let q := values.foldl (fun q kv => kv.2.foldl (fun q v => valuesAdd q kv.1 v) q) q
    .ok { req with url := { rawQuery := valuesEncode q } }

/-- The option-application loop of src/httpclient.go lines 200-204 (and
135-139): apply in order, abort on the first error. -/
def applyOptions : List RequestOption → Request → Except GoError Request
  | [], req => .ok req
  | opt :: rest, req =>
    match opt req with
    | .error e => .error e
    | .ok req2 => applyOptions rest req2

/-- The part of Go `http.Response` the pipeline reads: status code, status
text, the `Content-Encoding` header and the raw body bytes (cookies feed only
logging, which never affects outcomes). -/
structure Response where
  statusCode : Nat
  status : String
  contentEncoding : String
  body : String
  deriving DecidableEq, Repr

/-- Outcome of one network exchange: a response, or the transport's error. -/
abbrev TransportResult := Except GoError Response

/-- The network as an oracle: the outcome of the n-th exchange of the call. -/
abbrev Transport := Nat → TransportResult

/-- Modelled from the spec: the gzip codec of the standard `compress/gzip`
library is external to this repository; per spec sections 1 and 8 it is an
abstract codec with the round-trip property `decode(compress(X)) == X`, and
its reader fails on a stream lacking the gzip header.  Compression is modelled
as an injective framing of the payload behind the two gzip magic bytes. -/
def gzipCompress (data : String) : String :=
  String.mk ('\x1f' :: '\x8b' :: data.data)

/-- Modelled from the spec: `gzip.NewReader` followed by `ReadAll`, inverse of
`gzipCompress`; fails on input lacking the gzip magic bytes. -/
def gzipDecode (wire : String) : Except GoError String :=
  match wire.data with
  | '\x1f' :: '\x8b' :: rest => .ok (String.mk rest)
  | _ => .error (.otherErr "gzip: invalid header")

/-- Modelled from the spec: the retrier of the external go-resiliency library
(spec sections 3 and 4.2): a backoff sequence whose length bounds the number
of additional attempts, and a classifier. -/
structure Retrier where
  backoff : List Duration
  classify : Option GoError → Action

/-- Client from src/httpclient.go lines 26-31: the embedded `http.Client` is
reduced to its `Timeout` field (the only one the pipeline touches); `ctx` is
an opaque tag for the stored `context.Context`. -/
structure Client where
  Timeout : Duration
  retrier : Option Retrier
  reqOpts : List RequestOption
  ctx : Nat

/-- Timeout defaulting from src/httpclient.go lines 206-208 (and 141-143):
`if client.Timeout == 0 { client.Timeout = DefaultTimeout }`. -/
def timeoutDefault (c : Client) : Client :=
  if c.Timeout = 0 then { c with Timeout := DefaultTimeout } else c

/-- Client.SetRetry from src/httpclient.go lines 61-63: install a retrier with
the given backoff and the default classifier. -/
def Client.SetRetry (c : Client) (backoff : List Duration) : Client :=
  { c with retrier := some { backoff := backoff, classify := DefaultRetryClassifier } }

/-- Client.SetDefaultReqOpts from src/httpclient.go lines 56-58. -/
def Client.SetDefaultReqOpts (c : Client) (reqOpts : List RequestOption) : Client :=
  { c with reqOpts := reqOpts }

/-- Result of one invocation of the internal `do`: the (possibly mutated)
client, the `(result, err)` outcome, and the request handed to the transport
when the attempt reached dispatch (`none` when it aborted earlier). -/
structure AttemptOut where
  client : Client
  outcome : Except GoError String
  sent : Option Request

/-- Client.do from src/httpclient.go lines 187-267, for one attempt whose
exchange outcome is `t`: build the request (`http.NewRequest`; URL and method
are taken as already validated, the claims do not exercise its failure path),
apply default options then per-call options fail-fast, default the client
Timeout, dispatch, map a non-2xx status to `HTTPError`, transparently gunzip
a `Content-Encoding: gzip` body, return the body bytes.  Logging calls are
omitted: they do not affect any outcome. -/
def Client.doOnce (c : Client) (method : String) (url : URL) (body : String)
    (callOpts : List RequestOption) (t : TransportResult) : AttemptOut :=
  let req : Request := { method := method, url := url, headers := [], body := body }
  match applyOptions (c.reqOpts ++ callOpts) req with
  | .error e => ⟨c, .error e, none⟩
  | .ok req2 =>
    let c2 := timeoutDefault c
    match t with
    | .error e => ⟨c2, .error e, some req2⟩
    | .ok resp =>
      if resp.statusCode < 200 ∨ 300 ≤ resp.statusCode then
        ⟨c2, .error (.httpErr resp.statusCode resp.status), some req2⟩
      else if resp.contentEncoding = "gzip" then
        match gzipDecode resp.body with
        | .error e => ⟨c2, .error e, some req2⟩
        | .ok data => ⟨c2, .ok data, some req2⟩
      else
        ⟨c2, .ok resp.body, some req2⟩

/-- The `err` component of a Go `(result, err)` pair. -/
def errOf : Except GoError String → Option GoError
  | .ok _ => none
  | .error e => some e

/-- The `result` component of a Go `(result, err)` pair: `do` returns `""`
together with every error. -/
def resultOf : Except GoError String → String
  | .ok s => s
  | .error _ => ""

/-- Result of `Client.Do`: final client state, the returned `(result, err)`
pair, the number of invocations of the internal `do`, and the number of
network exchanges performed. -/
structure DoOut where
  client : Client
  result : String
  err : Option GoError
  attempts : Nat
  transportCalls : Nat

/-- Modelled from the spec: `retrier.Run` of the external go-resiliency
library (spec sections 3 and 4.2): run the work, classify; Succeed and Fail
return the work's outcome at once; Retry re-attempts after the next backoff
delay, and when the delay sequence is exhausted the final attempt's outcome is
returned regardless of classification.  `remaining` counts the delays left;
sleeping has no observable effect on outcomes and is omitted. -/
def retryLoop (classify : Option GoError → Action) (work : Nat → Client → AttemptOut) :
    Nat → Client → Nat → Nat → DoOut
  | remaining, c, attemptIdx, tcalls =>
    let a := work attemptIdx c
    let tc := tcalls + (if a.sent.isSome then 1 else 0)
    let stop : DoOut :=
      ⟨a.client, resultOf a.outcome, errOf a.outcome, attemptIdx + 1, tc⟩
    match classify (errOf a.outcome) with
    | .Succeed => stop
    | .Fail => stop
    | .Retry =>
      match remaining with
      | 0 => stop
      | r + 1 => retryLoop classify work r a.client (attemptIdx + 1) tc

/-- Client.Do from src/httpclient.go lines 106-119: with no retrier, one
invocation of `do`; otherwise `retrier.Run` around a closure that stores each
attempt's `(result, err)` and reports the error to the classifier. -/
def Client.Do (c : Client) (method : String) (url : URL) (body : String)
    (callOpts : List RequestOption) (transport : Transport) : DoOut :=
  match c.retrier with
  | none =>
    let a := c.doOnce method url body callOpts (transport 0)
    ⟨a.client, resultOf a.outcome, errOf a.outcome, 1, if a.sent.isSome then 1 else 0⟩
  | some r =>
    retryLoop r.classify (fun i cl => cl.doOnce method url body callOpts (transport i))
      r.backoff.length c 0 0

/-- Result of `Client.DownloadFile`: final client state, returned error,
bytes written to the sink, the dispatched request if any, and the number of
network exchanges performed. -/
structure DownloadOut where
  client : Client
  err : Option GoError
  written : Nat
  sent : Option Request
  transportCalls : Nat

/-- Client.DownloadFile from src/httpclient.go lines 122-184: fixed method
GET, nil request body, default options then per-call options fail-fast,
Timeout defaulting, a single exchange (no retrier involved anywhere in this
function), non-2xx mapped to `HTTPError`, then the raw body is streamed to the
file sink (no decompression); `createErr` and `copyErr` are the outcomes of
the external file sink (`os.Create`, `io.Copy`); on success the count of
bytes written is the body size. -/
def Client.DownloadFile (c : Client) (url : URL) (callOpts : List RequestOption)
    (t : TransportResult) (createErr : Option GoError) (copyErr : Option GoError) :
    DownloadOut :=
  let req : Request := { method := "GET", url := url, headers := [], body := "" }
  match applyOptions (c.reqOpts ++ callOpts) req with
  | .error e => ⟨c, some e, 0, none, 0⟩
  | .ok req2 =>
    let c2 := timeoutDefault c
    match t with
    | .error e => ⟨c2, some e, 0, some req2, 1⟩
    | .ok resp =>
      if resp.statusCode < 200 ∨ 300 ≤ resp.statusCode then
        ⟨c2, some (.httpErr resp.statusCode resp.status), 0, some req2, 1⟩
      else
        match createErr with
        | some e => ⟨c2, some e, 0, some req2, 1⟩
        | none =>
          match copyErr with
          | some e => ⟨c2, some e, 0, some req2, 1⟩
          | none => ⟨c2, none, resp.body.length, some req2, 1⟩

/-- Result of a codec-wrapper call: final client state, the call's outcome
carrying the decoded result when unmarshalling happened, the number of `do`
invocations and of network exchanges. -/
structure CodecOut (β : Type) where
  client : Client
  decoded : Except GoError (Option β)
  attempts : Nat
  transportCalls : Nat

/-- JSONClient.Do from src/unnamed/part_002 lines 55-82 and XMLClient.Do from
src/xmlclient.go lines 55-82, which are identical up to the codec: marshal the
typed body when present (`string(nil) = ""` when absent), append the forced
content-type option after the caller's options, delegate to the byte-oriented
`Client.Do`, and unmarshal into the result target exactly when a target is
present and the response string is non-empty.  `enc`/`dec` model the external
`json`/`xml` codecs (spec section 1 treats them as pluggable
`encode`/`decode` capabilities); `hasResult` models `result != nil`. -/
def codecDo {α β : Type} (enc : α → Except GoError String)
    (dec : String → Except GoError β) (ctOpt : RequestOption) (c : Client)
    (method : String) (url : URL) (body : Option α) (hasResult : Bool)
    (callOpts : List RequestOption) (transport : Transport) : CodecOut β :=
  let bodyStr : Except GoError String :=
    match body with
    | none => .ok ""
    | some v => enc v
  match bodyStr with
  | .error e => ⟨c, .error e, 0, 0⟩
  | .ok s =>
    let d := c.Do method url s (callOpts ++ [ctOpt]) transport
    match d.err with
    | some e => ⟨d.client, .error e, d.attempts, d.transportCalls⟩
    | none =>
      if hasResult && d.result != "" then
        match dec d.result with
        | .error e => ⟨d.client, .error e, d.attempts, d.transportCalls⟩
        | .ok b => ⟨d.client, .ok (some b), d.attempts, d.transportCalls⟩
      else
        ⟨d.client, .ok none, d.attempts, d.transportCalls⟩

/-- JSONClient.Do from src/unnamed/part_002 lines 55-82, with the JSON codec
abstract. -/
def JSONClient.Do {α β : Type} (enc : α → Except GoError String)
    (dec : String → Except GoError β) (c : Client) (method : String) (url : URL)
    (body : Option α) (hasResult : Bool) (callOpts : List RequestOption)
    (transport : Transport) : CodecOut β :=
  codecDo enc dec SetTypeJSON c method url body hasResult callOpts transport

/-- XMLClient.Do from src/xmlclient.go lines 55-82, with the XML codec
abstract. -/
def XMLClient.Do {α β : Type} (enc : α → Except GoError String)
    (dec : String → Except GoError β) (c : Client) (method : String) (url : URL)
    (body : Option α) (hasResult : Bool) (callOpts : List RequestOption)
    (transport : Transport) : CodecOut β :=
  codecDo enc dec SetTypeXML c method url body hasResult callOpts transport

/-- The freshly built request of one call (`http.NewRequest` with the given
method, url and body reader, before any option is applied). -/
def initReq (method : String) (url : URL) (body : String) : Request :=
  { method := method, url := url, headers := [], body := body }

/-- The `(result, err)` outcome of one invocation of the internal `do`, as a
function of the default options alone: the outcome of an attempt reads no
other client field.  `doOnce_outcome` proves the decomposition. -/
def doOutcome (defaults : List RequestOption) (method : String) (url : URL)
    (body : String) (callOpts : List RequestOption) (t : TransportResult) :
    Except GoError String :=
  match applyOptions (defaults ++ callOpts) (initReq method url body) with
  | .error e => .error e
  | .ok _ =>
    match t with
    | .error e => .error e
    | .ok resp =>
      if resp.statusCode < 200 ∨ 300 ≤ resp.statusCode then
        .error (.httpErr resp.statusCode resp.status)
      else if resp.contentEncoding = "gzip" then
        match gzipDecode resp.body with
        | .error e => .error e
        | .ok data => .ok data
      else .ok resp.body

theorem doOnce_outcome (c : Client) (m : String) (u : URL) (b : String)
    (opts : List RequestOption) (t : TransportResult) :
    (c.doOnce m u b opts t).outcome = doOutcome c.reqOpts m u b opts t := by
  simp only [Client.doOnce, doOutcome, initReq]
  split
  · rfl
  · split
    · rfl
    · split
      · rfl
      · split
        · split <;> rfl
        · rfl

theorem doOnce_client (c : Client) (m : String) (u : URL) (b : String)
    (opts : List RequestOption) (t : TransportResult) :
    (c.doOnce m u b opts t).client =
      match applyOptions (c.reqOpts ++ opts) (initReq m u b) with
      | .error _ => c
      | .ok _ => timeoutDefault c := by
  simp only [Client.doOnce, initReq]
  split
  · rfl
  · split
    · rfl
    · split
      · rfl
      · split
        · split <;> rfl
        · rfl

theorem doOnce_sent (c : Client) (m : String) (u : URL) (b : String)
    (opts : List RequestOption) (t : TransportResult) :
    (c.doOnce m u b opts t).sent =
      match applyOptions (c.reqOpts ++ opts) (initReq m u b) with
      | .error _ => none
      | .ok req2 => some req2 := by
  simp only [Client.doOnce, initReq]
  split
  · rfl
  · split
    · rfl
    · split
      · rfl
      · split
        · split <;> rfl
        · rfl

theorem timeoutDefault_Timeout (c : Client) :
    (timeoutDefault c).Timeout = if c.Timeout = 0 then DefaultTimeout else c.Timeout := by
  unfold timeoutDefault; split <;> simp_all

theorem timeoutDefault_reqOpts (c : Client) : (timeoutDefault c).reqOpts = c.reqOpts := by
  unfold timeoutDefault; split <;> rfl

theorem timeoutDefault_retrier (c : Client) : (timeoutDefault c).retrier = c.retrier := by
  unfold timeoutDefault; split <;> rfl

theorem timeoutDefault_ctx (c : Client) : (timeoutDefault c).ctx = c.ctx := by
  unfold timeoutDefault; split <;> rfl

theorem DefaultTimeout_ne_zero : DefaultTimeout ≠ 0 := by decide

theorem timeoutDefault_idem (c : Client) :
    timeoutDefault (timeoutDefault c) = timeoutDefault c := by
  unfold timeoutDefault
  by_cases h : c.Timeout = 0 <;> simp [h, DefaultTimeout_ne_zero]

theorem applyOptions_append (l1 l2 : List RequestOption) (req : Request) :
    applyOptions (l1 ++ l2) req =
      match applyOptions l1 req with
      | .error e => .error e
      | .ok r => applyOptions l2 r := by
  induction l1 generalizing req with
  | nil => rfl
  | cons opt rest ih =>
    simp only [List.cons_append, applyOptions]
    cases opt req with
    | error e => rfl
    | ok r => exact ih r

/-- C2: with no retry classifier configured (`client.retrier == nil`,
src/httpclient.go lines 106-108), `Do` performs exactly one invocation of the
internal `do` and returns that single attempt's `(result, err)` pair
unchanged, whatever the kind of failure. -/
theorem no_retrier_single_attempt (c : Client) (m : String) (u : URL) (b : String)
    (opts : List RequestOption) (transport : Transport) (h : c.retrier = none) :
    (c.Do m u b opts transport).attempts = 1 ∧
    (c.Do m u b opts transport).err = errOf (c.doOnce m u b opts (transport 0)).outcome ∧
    (c.Do m u b opts transport).result = resultOf (c.doOnce m u b opts (transport 0)).outcome := by
  simp only [Client.Do, h]
  exact ⟨by trivial, by trivial, by trivial⟩

/-- A client with no retrier, no default options and zero timeout, used as a
concrete input. -/
def clientPlain : Client :=
  { Timeout := 0, retrier := none, reqOpts := [], ctx := 0 }

/-- A transport oracle failing every exchange with a distinct plain error. -/
def transportAlwaysFail : Transport :=
  fun i => .error (.otherErr (toString i))

/-- Witness for C2: one attempt, the failure returned immediately. -/
theorem no_retrier_single_attempt_witness :
    (clientPlain.Do "GET" ⟨[]⟩ "" [] transportAlwaysFail).attempts = 1 ∧
    (clientPlain.Do "GET" ⟨[]⟩ "" [] transportAlwaysFail).err = some (.otherErr "0") := by
  have h := no_retrier_single_attempt clientPlain "GET" ⟨[]⟩ "" [] transportAlwaysFail rfl
  refine ⟨h.1, ?_⟩
  rw [h.2.1]
  decide

theorem doOnce_reqOpts (c : Client) (m : String) (u : URL) (b : String)
    (opts : List RequestOption) (t : TransportResult) :
    (c.doOnce m u b opts t).client.reqOpts = c.reqOpts := by
  rw [doOnce_client]
  cases applyOptions (c.reqOpts ++ opts) (initReq m u b) with
  | error e => rfl
  | ok r => exact timeoutDefault_reqOpts c

theorem doOnce_retrier (c : Client) (m : String) (u : URL) (b : String)
    (opts : List RequestOption) (t : TransportResult) :
    (c.doOnce m u b opts t).client.retrier = c.retrier := by
  rw [doOnce_client]
  cases applyOptions (c.reqOpts ++ opts) (initReq m u b) with
  | error e => rfl
  | ok r => exact timeoutDefault_retrier c

theorem doOnce_ctx (c : Client) (m : String) (u : URL) (b : String)
    (opts : List RequestOption) (t : TransportResult) :
    (c.doOnce m u b opts t).client.ctx = c.ctx := by
  rw [doOnce_client]
  cases applyOptions (c.reqOpts ++ opts) (initReq m u b) with
  | error e => rfl
  | ok r => exact timeoutDefault_ctx c

theorem retryLoop_always_retry (classify : Option GoError → Action)
    (m : String) (u : URL) (b : String) (opts : List RequestOption)
    (transport : Transport) (hcl : ∀ o, classify o = .Retry) (R : List RequestOption) :
    ∀ (remaining : Nat) (c : Client), c.reqOpts = R → ∀ (i tc : Nat),
      (retryLoop classify (fun j cl => cl.doOnce m u b opts (transport j))
          remaining c i tc).attempts = i + remaining + 1 ∧
      (retryLoop classify (fun j cl => cl.doOnce m u b opts (transport j))
          remaining c i tc).err
        = errOf (doOutcome R m u b opts (transport (i + remaining))) := by
  intro remaining
  induction remaining with
  | zero =>
    intro c hR i tc
    rw [retryLoop]
    simp only [hcl]
    refine ⟨trivial, ?_⟩
    rw [doOnce_outcome, hR]
    rfl
  | succ r ih =>
    intro c hR i tc
    rw [retryLoop]
    simp only [hcl]
    have hR2 : (c.doOnce m u b opts (transport i)).client.reqOpts = R := by
      rw [doOnce_reqOpts, hR]
    have h2 := ih (c.doOnce m u b opts (transport i)).client hR2 (i + 1)
      (tc + if (c.doOnce m u b opts (transport i)).sent.isSome then 1 else 0)
    refine ⟨?_, ?_⟩
    · rw [h2.1]; omega
    · rw [h2.2]
      have hidx : i + 1 + r = i + (r + 1) := by omega
      rw [hidx]

/-- C1: with a retrier configured whose classifier answers Retry for every
outcome of the work closure, `Do` performs exactly `len(backoff) + 1`
invocations of the internal `do`, terminates, and returns the outcome of the
final attempt: its error is the final attempt's error, not an earlier
attempt's and not an aggregate (src/httpclient.go lines 106-119 around the
go-resiliency retrier). -/
theorem always_retry_runs_all_attempts (c : Client) (r : Retrier)
    (m : String) (u : URL) (b : String) (opts : List RequestOption)
    (transport : Transport) (hr : c.retrier = some r)
    (hcl : ∀ o, r.classify o = .Retry) :
    (c.Do m u b opts transport).attempts = r.backoff.length + 1 ∧
    (c.Do m u b opts transport).err
      = errOf (doOutcome c.reqOpts m u b opts (transport r.backoff.length)) := by
  simp only [Client.Do, hr]
  have h := retryLoop_always_retry r.classify m u b opts transport hcl c.reqOpts
    r.backoff.length c rfl 0 0
  refine ⟨?_, ?_⟩
  · rw [h.1]; omega
  · rw [h.2]
    have hidx : 0 + r.backoff.length = r.backoff.length := by omega
    rw [hidx]

/-- A retrier with a backoff sequence of length 2 and a classifier answering
Retry on every outcome, used as a concrete input. -/
def retrierAlwaysRetry : Retrier :=
  { backoff := [5, 7], classify := fun _ => .Retry }

/-- A client carrying `retrierAlwaysRetry`, used as a concrete input. -/
def clientAlwaysRetry : Client :=
  { Timeout := 0, retrier := some retrierAlwaysRetry, reqOpts := [], ctx := 0 }

/-- Witness for C1: backoff length 2, three attempts, the third attempt's
error is returned. -/
theorem always_retry_runs_all_attempts_witness :
    (clientAlwaysRetry.Do "GET" ⟨[]⟩ "" [] transportAlwaysFail).attempts = 3 ∧
    (clientAlwaysRetry.Do "GET" ⟨[]⟩ "" [] transportAlwaysFail).err
      = some (.otherErr "2") := by
  have h := always_retry_runs_all_attempts clientAlwaysRetry retrierAlwaysRetry
    "GET" ⟨[]⟩ "" [] transportAlwaysFail rfl (fun _ => rfl)
  refine ⟨h.1, ?_⟩
  rw [h.2]
  decide

theorem retryLoop_stop_first (classify : Option GoError → Action)
    (work : Nat → Client → AttemptOut) (remaining : Nat) (c : Client) (i tc : Nat)
    (h : classify (errOf (work i c).outcome) ≠ .Retry) :
    retryLoop classify work remaining c i tc =
      ⟨(work i c).client, resultOf (work i c).outcome, errOf (work i c).outcome,
        i + 1, tc + (if (work i c).sent.isSome then 1 else 0)⟩ := by
  rw [retryLoop.eq_def]
  cases hc : classify (errOf (work i c).outcome) with
  | Succeed => simp only [hc]
  | Fail => simp only [hc]
  | Retry => exact absurd hc h

theorem Do_retrier_some (c : Client) (r : Retrier) (m : String) (u : URL) (b : String)
    (opts : List RequestOption) (transport : Transport) (h : c.retrier = some r) :
    c.Do m u b opts transport
      = retryLoop r.classify (fun i cl => cl.doOnce m u b opts (transport i))
          r.backoff.length c 0 0 := by
  simp only [Client.Do, h]

theorem Do_single_attempt_of_not_retry (c : Client) (r : Retrier) (m : String)
    (u : URL) (b : String) (opts : List RequestOption) (transport : Transport)
    (hr : c.retrier = some r)
    (hstop : r.classify (errOf (c.doOnce m u b opts (transport 0)).outcome) ≠ .Retry) :
    (c.Do m u b opts transport).attempts = 1 ∧
    (c.Do m u b opts transport).err = errOf (c.doOnce m u b opts (transport 0)).outcome := by
  rw [Do_retrier_some c r m u b opts transport hr,
    retryLoop_stop_first r.classify (fun i cl => cl.doOnce m u b opts (transport i))
      r.backoff.length c 0 0 hstop]
  exact ⟨by trivial, by trivial⟩

theorem doOnce_opts_error (c : Client) (m : String) (u : URL) (b : String)
    (opts : List RequestOption) (t : TransportResult) (e : GoError)
    (h : applyOptions (c.reqOpts ++ opts) (initReq m u b) = .error e) :
    c.doOnce m u b opts t = ⟨c, .error e, none⟩ := by
  simp only [initReq] at h
  simp only [Client.doOnce, h]

theorem retryLoop_opts_error (classify : Option GoError → Action)
    (m : String) (u : URL) (b : String) (opts : List RequestOption)
    (transport : Transport) (e : GoError) :
    ∀ (remaining : Nat) (c : Client),
      applyOptions (c.reqOpts ++ opts) (initReq m u b) = .error e →
      ∀ (i tc : Nat),
      (retryLoop classify (fun j cl => cl.doOnce m u b opts (transport j))
          remaining c i tc).err = some e ∧
      (retryLoop classify (fun j cl => cl.doOnce m u b opts (transport j))
          remaining c i tc).transportCalls = tc ∧
      (retryLoop classify (fun j cl => cl.doOnce m u b opts (transport j))
          remaining c i tc).client = c ∧
      (retryLoop classify (fun j cl => cl.doOnce m u b opts (transport j))
          remaining c i tc).result = "" := by
  intro remaining
  induction remaining with
  | zero =>
    intro c h i tc
    rw [retryLoop, doOnce_opts_error c m u b opts (transport i) e h]
    cases hc : classify (errOf (Except.error e)) <;>
      simp [hc, errOf, resultOf]
  | succ r ih =>
    intro c h i tc
    rw [retryLoop, doOnce_opts_error c m u b opts (transport i) e h]
    cases hc : classify (errOf (Except.error e)) with
    | Succeed => simp [hc, errOf, resultOf]
    | Fail => simp [hc, errOf, resultOf]
    | Retry =>
      simp only [hc, errOf, Option.isSome_none, Bool.false_eq_true, if_false,
        Nat.add_zero]
      exact ih c h (i + 1) tc

/-- C3 counterexample: the default classifier (`DefaultRetryClassifier`, the
one `Client.SetRetry` installs) maps an error that is not a temporary
transport error to Retry, not Fail, because its text contains one of the
HTTP/2 retriable substrings; this refutes "every other error to Fail". -/
theorem default_classifier_not_fail_counterexample :
    (GoError.otherErr "http2: PROTOCOL_ERROR received").isTemporaryNet = false ∧
    DefaultRetryClassifier (some (.otherErr "http2: PROTOCOL_ERROR received")) = .Retry ∧
    DefaultRetryClassifier (some (.otherErr "http2: PROTOCOL_ERROR received")) ≠ .Fail := by
  decide

/-- C3 amended: the classification table of src/retry.go (nil to Succeed,
temporary transport error to Retry, every other error to Fail) holds for
`Retry.Classify`; the default classifier (`DefaultRetryClassifier`, installed
by `SetRetry`) additionally maps errors whose text contains one of the HTTP/2
retriable substrings to Retry and every remaining error to Fail; consequently
a non-2xx response whose `HTTPError` text does not contain such a substring is
classified Fail under the default classifier: exactly one attempt occurs and
the returned error is the protocol-status error carrying the observed status
code and text. -/
theorem classifier_policy_amended :
    (Retry.Classify none = .Succeed ∧
      ∀ e : GoError, Retry.Classify (some e)
        = if e.isTemporaryNet then .Retry else .Fail) ∧
    (DefaultRetryClassifier none = .Succeed ∧
      ∀ e : GoError, DefaultRetryClassifier (some e)
        = if e.isTemporaryNet then .Retry
          else if HTTP2RetriableError.any (fun p => strContains e.errString p) then .Retry
          else .Fail) ∧
    (∀ (c : Client) (backoff : List Duration) (m : String) (u : URL) (b : String)
        (opts : List RequestOption) (transport : Transport) (req2 : Request)
        (resp : Response),
      applyOptions (c.reqOpts ++ opts) (initReq m u b) = .ok req2 →
      transport 0 = .ok resp →
      (resp.statusCode < 200 ∨ 300 ≤ resp.statusCode) →
      HTTP2RetriableError.any
        (fun p => strContains (GoError.httpErr resp.statusCode resp.status).errString p)
        = false →
      ((c.SetRetry backoff).Do m u b opts transport).attempts = 1 ∧
      ((c.SetRetry backoff).Do m u b opts transport).err
        = some (.httpErr resp.statusCode resp.status)) := by
  refine ⟨⟨rfl, fun e => rfl⟩, ⟨rfl, fun e => rfl⟩, ?_⟩
  intro c backoff m u b opts transport req2 resp happly ht hbad hsub
  have hreq : (c.SetRetry backoff).reqOpts = c.reqOpts := rfl
  have houtcome : ((c.SetRetry backoff).doOnce m u b opts (transport 0)).outcome
      = .error (.httpErr resp.statusCode resp.status) := by
    rw [doOnce_outcome, hreq]
    unfold doOutcome
    rw [happly, ht]
    simp only [if_pos hbad]
  have hclass : DefaultRetryClassifier
      (errOf ((c.SetRetry backoff).doOnce m u b opts (transport 0)).outcome) = .Fail := by
    rw [houtcome]
    simp only [errOf, DefaultRetryClassifier, RetryClassifier.Classify,
      GoError.isTemporaryNet, hsub]
    rfl
  have hmain := Do_single_attempt_of_not_retry (c.SetRetry backoff)
    ⟨backoff, DefaultRetryClassifier⟩ m u b opts transport rfl
    (by
      show DefaultRetryClassifier
        (errOf ((c.SetRetry backoff).doOnce m u b opts (transport 0)).outcome) ≠ .Retry
      rw [hclass]; intro hcon; exact Action.noConfusion hcon)
  refine ⟨hmain.1, ?_⟩
  rw [hmain.2, houtcome]
  rfl

/-- The network oracle answering 404 Not Found on every exchange. -/
def transport404 : Transport :=
  fun _ => .ok ⟨404, "404 Not Found", "", ""⟩

/-- Witness for C3 amended: a 404 response under the default classifier gives
one attempt and the protocol-status error. -/
theorem classifier_policy_amended_witness :
    ((clientPlain.SetRetry [1]).Do "GET" ⟨[]⟩ "" [] transport404).attempts = 1 ∧
    ((clientPlain.SetRetry [1]).Do "GET" ⟨[]⟩ "" [] transport404).err
      = some (.httpErr 404 "404 Not Found") :=
  classifier_policy_amended.2.2 clientPlain [1] "GET" ⟨[]⟩ "" [] transport404
    (initReq "GET" ⟨[]⟩ "") ⟨404, "404 Not Found", "", ""⟩ rfl rfl (by decide) (by decide)

/-- An option failing with a message that contains a HTTP/2 retriable
substring, used as a concrete input. -/
def optErrRetriable : RequestOption :=
  fun _ => .error (.otherErr "x CONNECT_ERROR y")

/-- C4 counterexample: with the default classifier and a backoff of length 1
configured, an option failing with a retriable-looking message is retried:
two invocations of `do` occur even though the transport is never invoked,
refuting "no retry is attempted even when a classifier and backoff sequence
are configured". -/
theorem option_error_retried_counterexample :
    ((clientPlain.SetRetry [1]).Do "GET" ⟨[]⟩ "" [optErrRetriable]
        transportAlwaysFail).attempts = 2 ∧
    ((clientPlain.SetRetry [1]).Do "GET" ⟨[]⟩ "" [optErrRetriable]
        transportAlwaysFail).transportCalls = 0 := by
  decide

/-- C4 amended: the first erroring option aborts every attempt before any
network I/O: in the whole call the transport is invoked zero times and `Do`
returns that option error (whatever classifier and backoff are configured,
and also with none); whether additional attempts occur is decided by the
classifier as for any failure: under the default classifier installed by
`SetRetry`, an option error that is not a temporary net error and does not
match a retriable pattern causes exactly one attempt. -/
theorem option_error_fail_fast_amended :
    (∀ (c : Client) (m : String) (u : URL) (b : String) (opts : List RequestOption)
        (transport : Transport) (e : GoError),
      applyOptions (c.reqOpts ++ opts) (initReq m u b) = .error e →
      (c.Do m u b opts transport).err = some e ∧
      (c.Do m u b opts transport).transportCalls = 0 ∧
      (c.Do m u b opts transport).result = "") ∧
    (∀ (c : Client) (backoff : List Duration) (m : String) (u : URL) (b : String)
        (opts : List RequestOption) (transport : Transport) (e : GoError),
      applyOptions (c.reqOpts ++ opts) (initReq m u b) = .error e →
      e.isTemporaryNet = false →
      HTTP2RetriableError.any (fun p => strContains e.errString p) = false →
      ((c.SetRetry backoff).Do m u b opts transport).attempts = 1) := by
  constructor
  · intro c m u b opts transport e h
    cases hr : c.retrier with
    | none =>
      simp only [Client.Do, hr, doOnce_opts_error c m u b opts (transport 0) e h]
      simp [errOf, resultOf]
    | some r =>
      simp only [Client.Do, hr]
      have hloop := retryLoop_opts_error r.classify m u b opts transport e
        r.backoff.length c h 0 0
      exact ⟨hloop.1, hloop.2.1, hloop.2.2.2⟩
  · intro c backoff m u b opts transport e h htmp hsub
    have hreq : (c.SetRetry backoff).reqOpts = c.reqOpts := rfl
    have h2 : applyOptions ((c.SetRetry backoff).reqOpts ++ opts) (initReq m u b)
        = .error e := by rw [hreq]; exact h
    have hclass : DefaultRetryClassifier
        (errOf ((c.SetRetry backoff).doOnce m u b opts (transport 0)).outcome)
        = .Fail := by
      rw [doOnce_opts_error (c.SetRetry backoff) m u b opts (transport 0) e h2]
      simp only [errOf, DefaultRetryClassifier, RetryClassifier.Classify, htmp, hsub]
      rfl
    exact (Do_single_attempt_of_not_retry (c.SetRetry backoff)
      ⟨backoff, DefaultRetryClassifier⟩ m u b opts transport rfl
      (by
        show DefaultRetryClassifier
          (errOf ((c.SetRetry backoff).doOnce m u b opts (transport 0)).outcome) ≠ .Retry
        rw [hclass]; intro hcon; exact Action.noConfusion hcon)).1

/-- An option failing with a plain message, used as a concrete input. -/
def optErrPlain : RequestOption :=
  fun _ => .error (.otherErr "bad header value")

/-- Witness for C4 amended: a plainly failing option gives one attempt, the
option's error, and zero transport invocations. -/
theorem option_error_fail_fast_amended_witness :
    ((clientPlain.SetRetry [1]).Do "GET" ⟨[]⟩ "" [optErrPlain]
        transportAlwaysFail).err = some (.otherErr "bad header value") ∧
    ((clientPlain.SetRetry [1]).Do "GET" ⟨[]⟩ "" [optErrPlain]
        transportAlwaysFail).transportCalls = 0 ∧
    ((clientPlain.SetRetry [1]).Do "GET" ⟨[]⟩ "" [optErrPlain]
        transportAlwaysFail).attempts = 1 := by
  have h1 := option_error_fail_fast_amended.1 (clientPlain.SetRetry [1]) "GET" ⟨[]⟩ ""
    [optErrPlain] transportAlwaysFail (.otherErr "bad header value") rfl
  have h2 := option_error_fail_fast_amended.2 clientPlain [1] "GET" ⟨[]⟩ ""
    [optErrPlain] transportAlwaysFail (.otherErr "bad header value") rfl rfl (by decide)
  exact ⟨h1.1, h1.2.1, h2⟩

theorem retryLoop_client (classify : Option GoError → Action) (m : String) (u : URL)
    (b : String) (opts : List RequestOption) (transport : Transport) :
    ∀ (remaining : Nat) (c : Client) (i tc : Nat),
      (retryLoop classify (fun j cl => cl.doOnce m u b opts (transport j))
          remaining c i tc).client
        = match applyOptions (c.reqOpts ++ opts) (initReq m u b) with
          | .error _ => c
          | .ok _ => timeoutDefault c := by
  intro remaining
  induction remaining with
  | zero =>
    intro c i tc
    rw [retryLoop]
    cases hc : classify (errOf ((c.doOnce m u b opts (transport i))).outcome) with
    | Succeed => simp only [hc]; exact doOnce_client c m u b opts (transport i)
    | Fail => simp only [hc]; exact doOnce_client c m u b opts (transport i)
    | Retry => simp only [hc]; exact doOnce_client c m u b opts (transport i)
  | succ r ih =>
    intro c i tc
    rw [retryLoop]
    cases hc : classify (errOf ((c.doOnce m u b opts (transport i))).outcome) with
    | Succeed => simp only [hc]; exact doOnce_client c m u b opts (transport i)
    | Fail => simp only [hc]; exact doOnce_client c m u b opts (transport i)
    | Retry =>
      simp only [hc]
      rw [ih, doOnce_reqOpts, doOnce_client]
      cases happly : applyOptions (c.reqOpts ++ opts) (initReq m u b) with
      | error e => rfl
      | ok r2 => exact timeoutDefault_idem c

theorem Do_client (c : Client) (m : String) (u : URL) (b : String)
    (opts : List RequestOption) (transport : Transport) :
    (c.Do m u b opts transport).client
      = match applyOptions (c.reqOpts ++ opts) (initReq m u b) with
        | .error _ => c
        | .ok _ => timeoutDefault c := by
  cases hr : c.retrier with
  | none =>
    simp only [Client.Do, hr]
    exact doOnce_client c m u b opts (transport 0)
  | some r =>
    rw [Do_retrier_some c r m u b opts transport hr]
    exact retryLoop_client r.classify m u b opts transport r.backoff.length c 0 0

theorem downloadFile_client (c : Client) (u : URL) (opts : List RequestOption)
    (t : TransportResult) (ce cpe : Option GoError) :
    (Client.DownloadFile c u opts t ce cpe).client
      = match applyOptions (c.reqOpts ++ opts) (initReq "GET" u "") with
        | .error _ => c
        | .ok _ => timeoutDefault c := by
  simp only [Client.DownloadFile, initReq]
  split
  · rfl
  · split
    · rfl
    · split
      · rfl
      · split
        · rfl
        · split <;> rfl

/-- C10 counterexample: a `Do` call on a client whose Timeout is zero that
fails in option application (src/httpclient.go lines 200-204 run before lines
206-208) leaves Timeout at zero rather than setting it to DefaultTimeout. -/
theorem timeout_not_set_counterexample :
    clientPlain.Timeout = 0 ∧
    (clientPlain.Do "GET" ⟨[]⟩ "" [optErrPlain] transportAlwaysFail).client.Timeout = 0 ∧
    DefaultTimeout ≠ 0 := by
  decide

/-- C10 amended: every `Do` and `DownloadFile` call leaves the retrier, the
default request options and the stored context unchanged, and the only
mutation is the Timeout defaulting: when request construction and option
application succeed the client becomes `timeoutDefault` of itself (a zero
Timeout is set to DefaultTimeout, fifteen seconds, a nonzero one is kept, so
the change persists across subsequent calls); when an option fails the whole
client, Timeout included, is unchanged. -/
theorem timeout_defaulting_frame :
    (∀ (c : Client) (m : String) (u : URL) (b : String) (opts : List RequestOption)
        (transport : Transport),
      (c.Do m u b opts transport).client.retrier = c.retrier ∧
      (c.Do m u b opts transport).client.reqOpts = c.reqOpts ∧
      (c.Do m u b opts transport).client.ctx = c.ctx) ∧
    (∀ (c : Client) (m : String) (u : URL) (b : String) (opts : List RequestOption)
        (transport : Transport),
      (c.Do m u b opts transport).client
        = match applyOptions (c.reqOpts ++ opts) (initReq m u b) with
          | .error _ => c
          | .ok _ => timeoutDefault c) ∧
    (∀ (c : Client) (u : URL) (opts : List RequestOption) (t : TransportResult)
        (ce cpe : Option GoError),
      (Client.DownloadFile c u opts t ce cpe).client.retrier = c.retrier ∧
      (Client.DownloadFile c u opts t ce cpe).client.reqOpts = c.reqOpts ∧
      (Client.DownloadFile c u opts t ce cpe).client.ctx = c.ctx ∧
      (Client.DownloadFile c u opts t ce cpe).client
        = match applyOptions (c.reqOpts ++ opts) (initReq "GET" u "") with
          | .error _ => c
          | .ok _ => timeoutDefault c) ∧
    (∀ c : Client,
      (timeoutDefault c).Timeout = if c.Timeout = 0 then DefaultTimeout else c.Timeout) ∧
    (∀ c : Client, c.Timeout ≠ 0 → timeoutDefault c = c) ∧
    DefaultTimeout = 15 * 1000000000 := by
  refine ⟨?_, Do_client, ?_, timeoutDefault_Timeout, ?_, rfl⟩
  · intro c m u b opts transport
    have h := Do_client c m u b opts transport
    refine ⟨?_, ?_, ?_⟩ <;> rw [h] <;>
      cases applyOptions (c.reqOpts ++ opts) (initReq m u b) <;>
      first
        | rfl
        | exact timeoutDefault_retrier c
        | exact timeoutDefault_reqOpts c
        | exact timeoutDefault_ctx c
  · intro c u opts t ce cpe
    have h := downloadFile_client c u opts t ce cpe
    refine ⟨?_, ?_, ?_, h⟩ <;> rw [h] <;>
      cases applyOptions (c.reqOpts ++ opts) (initReq "GET" u "") <;>
      first
        | rfl
        | exact timeoutDefault_retrier c
        | exact timeoutDefault_reqOpts c
        | exact timeoutDefault_ctx c
  · intro c h
    unfold timeoutDefault
    rw [if_neg h]

/-- A client with a nonzero Timeout, used as a concrete input. -/
def clientTimeout5 : Client :=
  { Timeout := 5, retrier := none, reqOpts := [], ctx := 0 }

/-- Witness for C10 amended: a nonzero Timeout is kept, succeeding calls
default a zero Timeout, and configuration fields stay unchanged. -/
theorem timeout_defaulting_frame_witness :
    timeoutDefault clientTimeout5 = clientTimeout5 ∧
    (clientPlain.Do "GET" ⟨[]⟩ "" [] transport404).client.retrier = none ∧
    (clientPlain.Do "GET" ⟨[]⟩ "" [] transport404).client.Timeout = DefaultTimeout := by
  have h1 := timeout_defaulting_frame.2.2.2.2.1 clientTimeout5 (by decide)
  have h2 := (timeout_defaulting_frame.1 clientPlain "GET" ⟨[]⟩ "" [] transport404).1
  have h3 := timeout_defaulting_frame.2.1 clientPlain "GET" ⟨[]⟩ "" [] transport404
  refine ⟨h1, h2, ?_⟩
  rw [h3]
  decide

/-- The network oracle failing every exchange with a temporary net error. -/
def transportTempFail : Transport :=
  fun _ => .error (.netErr true "dial timeout")

/-- C5 counterexample: on the same client, configured by `SetRetry` with a
backoff of length 1, and the same always-temporarily-failing transport, `Do`
performs two network exchanges (retry pipeline) while `DownloadFile` performs
exactly one: `DownloadFile` does not execute the retry dispatch the claim
asserts. -/
theorem download_no_retry_counterexample :
    ((clientPlain.SetRetry [1]).Do "GET" ⟨[]⟩ "" [] transportTempFail).transportCalls = 2 ∧
    ((clientPlain.SetRetry [1]).DownloadFile ⟨[]⟩ [] (transportTempFail 0)
        none none).transportCalls = 1 := by
  decide

/-- C5 amended: `DownloadFile` shares the option-application stage (defaults
before per-call options, fail-fast with zero exchanges on an option error) and
the per-attempt status-code and transport-error handling of `do`, with method
fixed to GET, an empty request body, and the successful response body
streamed raw to the file sink with the byte count reported (no gzip
decompression); but it performs exactly one attempt: the configured retrier is
ignored, so no retry ever happens. -/
theorem downloadFile_single_attempt_amended :
    (∀ (c : Client) (u : URL) (opts : List RequestOption) (t : TransportResult)
        (ce cpe : Option GoError) (e : GoError),
      applyOptions (c.reqOpts ++ opts) (initReq "GET" u "") = .error e →
      (Client.DownloadFile c u opts t ce cpe).err = some e ∧
      (Client.DownloadFile c u opts t ce cpe).transportCalls = 0 ∧
      (Client.DownloadFile c u opts t ce cpe).sent = none) ∧
    (∀ (c : Client) (u : URL) (opts : List RequestOption) (t : TransportResult)
        (ce cpe : Option GoError) (req2 : Request),
      applyOptions (c.reqOpts ++ opts) (initReq "GET" u "") = .ok req2 →
      (Client.DownloadFile c u opts t ce cpe).transportCalls = 1 ∧
      (Client.DownloadFile c u opts t ce cpe).sent = some req2) ∧
    (∀ (c : Client) (r2 : Option Retrier) (u : URL) (opts : List RequestOption)
        (t : TransportResult) (ce cpe : Option GoError),
      (Client.DownloadFile { c with retrier := r2 } u opts t ce cpe).err
        = (Client.DownloadFile c u opts t ce cpe).err ∧
      (Client.DownloadFile { c with retrier := r2 } u opts t ce cpe).written
        = (Client.DownloadFile c u opts t ce cpe).written ∧
      (Client.DownloadFile { c with retrier := r2 } u opts t ce cpe).transportCalls
        = (Client.DownloadFile c u opts t ce cpe).transportCalls) ∧
    (∀ (c : Client) (u : URL) (opts : List RequestOption) (ce cpe : Option GoError)
        (e : GoError) (req2 : Request),
      applyOptions (c.reqOpts ++ opts) (initReq "GET" u "") = .ok req2 →
      (Client.DownloadFile c u opts (.error e) ce cpe).err = some e) ∧
    (∀ (c : Client) (u : URL) (opts : List RequestOption) (ce cpe : Option GoError)
        (resp : Response) (req2 : Request),
      applyOptions (c.reqOpts ++ opts) (initReq "GET" u "") = .ok req2 →
      (resp.statusCode < 200 ∨ 300 ≤ resp.statusCode) →
      (Client.DownloadFile c u opts (.ok resp) ce cpe).err
        = some (.httpErr resp.statusCode resp.status)) ∧
    (∀ (c : Client) (u : URL) (opts : List RequestOption) (resp : Response)
        (req2 : Request),
      applyOptions (c.reqOpts ++ opts) (initReq "GET" u "") = .ok req2 →
      ¬ (resp.statusCode < 200 ∨ 300 ≤ resp.statusCode) →
      (Client.DownloadFile c u opts (.ok resp) none none).err = none ∧
      (Client.DownloadFile c u opts (.ok resp) none none).written = resp.body.length) := by
  refine ⟨?_, ?_, ?_, ?_, ?_, ?_⟩
  · intro c u opts t ce cpe e happly
    simp only [initReq] at happly
    simp only [Client.DownloadFile, happly]
    exact ⟨by trivial, by trivial, by trivial⟩
  · intro c u opts t ce cpe req2 happly
    simp only [initReq] at happly
    simp only [Client.DownloadFile, happly]
    cases t with
    | error e => exact ⟨by trivial, by trivial⟩
    | ok resp =>
      by_cases hb : resp.statusCode < 200 ∨ 300 ≤ resp.statusCode
      · simp only [if_pos hb]; exact ⟨by trivial, by trivial⟩
      · simp only [if_neg hb]
        cases ce with
        | some e => exact ⟨by trivial, by trivial⟩
        | none =>
          cases cpe with
          | some e => exact ⟨by trivial, by trivial⟩
          | none => exact ⟨by trivial, by trivial⟩
  · intro c r2 u opts t ce cpe
    have hreqeq : ({ c with retrier := r2 } : Client).reqOpts = c.reqOpts := rfl
    simp only [Client.DownloadFile, hreqeq]
    cases applyOptions (c.reqOpts ++ opts)
        { method := "GET", url := u, headers := [], body := "" } with
    | error e => exact ⟨by trivial, by trivial, by trivial⟩
    | ok req2 =>
      cases t with
      | error e => exact ⟨by trivial, by trivial, by trivial⟩
      | ok resp =>
        by_cases hb : resp.statusCode < 200 ∨ 300 ≤ resp.statusCode
        · simp only [if_pos hb]; exact ⟨by trivial, by trivial, by trivial⟩
        · simp only [if_neg hb]
          cases ce with
          | some e => exact ⟨by trivial, by trivial, by trivial⟩
          | none =>
            cases cpe with
            | some e => exact ⟨by trivial, by trivial, by trivial⟩
            | none => exact ⟨by trivial, by trivial, by trivial⟩
  · intro c u opts ce cpe e req2 happly
    simp only [initReq] at happly
    simp only [Client.DownloadFile, happly]
  · intro c u opts ce cpe resp req2 happly hb
    simp only [initReq] at happly
    simp only [Client.DownloadFile, happly, if_pos hb]
  · intro c u opts resp req2 happly hb
    simp only [initReq] at happly
    simp only [Client.DownloadFile, happly, if_neg hb]
    exact ⟨by trivial, by trivial⟩

/-- Witness for C5 amended: a successful 200 download writes the whole body
and reports its size; an option error yields zero exchanges. -/
theorem downloadFile_single_attempt_amended_witness :
    (clientPlain.DownloadFile ⟨[]⟩ [] (.ok ⟨200, "200 OK", "", "hello"⟩) none none).err
      = none ∧
    (clientPlain.DownloadFile ⟨[]⟩ [] (.ok ⟨200, "200 OK", "", "hello"⟩) none none).written
      = 5 ∧
    (clientPlain.DownloadFile ⟨[]⟩ [optErrPlain] (transportTempFail 0) none none).transportCalls
      = 0 := by
  have h1 := downloadFile_single_attempt_amended.2.2.2.2.2 clientPlain ⟨[]⟩ []
    ⟨200, "200 OK", "", "hello"⟩ (initReq "GET" ⟨[]⟩ "") rfl (by decide)
  have h2 := (downloadFile_single_attempt_amended.1 clientPlain ⟨[]⟩ [optErrPlain]
    (transportTempFail 0) none none (.otherErr "bad header value") rfl).2.1
  exact ⟨h1.1, h1.2, h2⟩

theorem gzipDecode_gzipCompress (x : String) : gzipDecode (gzipCompress x) = .ok x := rfl

theorem doOnce_gzip_transparent (c : Client) (m : String) (u : URL) (b : String)
    (opts : List RequestOption) (code : Nat) (status X : String) :
    c.doOnce m u b opts (.ok ⟨code, status, "gzip", gzipCompress X⟩)
      = c.doOnce m u b opts (.ok ⟨code, status, "", X⟩) := by
  simp only [Client.doOnce]
  split
  · rfl
  · by_cases hb : code < 200 ∨ 300 ≤ code
    · rw [if_pos hb, if_pos hb]
    · rw [if_neg hb, if_neg hb]
      rfl

theorem Do_transport_congr (c : Client) (m : String) (u : URL) (b : String)
    (opts : List RequestOption) (t1 t2 : Transport)
    (h : ∀ (i : Nat) (cl : Client),
      cl.doOnce m u b opts (t1 i) = cl.doOnce m u b opts (t2 i)) :
    c.Do m u b opts t1 = c.Do m u b opts t2 := by
  cases hr : c.retrier with
  | none =>
    simp only [Client.Do, hr]
    rw [h 0 c]
  | some r =>
    rw [Do_retrier_some c r m u b opts t1 hr, Do_retrier_some c r m u b opts t2 hr]
    have hw : (fun (i : Nat) (cl : Client) => cl.doOnce m u b opts (t1 i))
        = (fun (i : Nat) (cl : Client) => cl.doOnce m u b opts (t2 i)) := by
      funext i cl
      exact h i cl
    rw [hw]

/-- C6: a response whose Content-Encoding header is gzip and whose body is the
compression of X gives the same `Do` outcome as the uncompressed response with
body X: the round trip `gzipDecode (gzipCompress X) = X` holds, the full `Do`
results coincide for every client (retrier or not) without any condition on
the request or its headers (the caller need not have requested compression),
and a successful 2xx attempt returns exactly X either way. -/
theorem gzip_transparent_roundtrip :
    (∀ X : String, gzipDecode (gzipCompress X) = .ok X) ∧
    (∀ (c : Client) (m : String) (u : URL) (b : String) (opts : List RequestOption)
        (code : Nat) (status X : String),
      c.Do m u b opts (fun _ => .ok ⟨code, status, "gzip", gzipCompress X⟩)
        = c.Do m u b opts (fun _ => .ok ⟨code, status, "", X⟩)) ∧
    (∀ (c : Client) (m : String) (u : URL) (b : String) (opts : List RequestOption)
        (code : Nat) (status X : String) (req2 : Request),
      applyOptions (c.reqOpts ++ opts) (initReq m u b) = .ok req2 →
      200 ≤ code ∧ code < 300 →
      (c.doOnce m u b opts (.ok ⟨code, status, "gzip", gzipCompress X⟩)).outcome = .ok X ∧
      (c.doOnce m u b opts (.ok ⟨code, status, "", X⟩)).outcome = .ok X) := by
  refine ⟨fun X => rfl, ?_, ?_⟩
  · intro c m u b opts code status X
    exact Do_transport_congr c m u b opts _ _
      (fun i cl => doOnce_gzip_transparent cl m u b opts code status X)
  · intro c m u b opts code status X req2 happly hrange
    have hcond : ¬ (code < 200 ∨ 300 ≤ code) := by omega
    constructor
    · rw [doOnce_outcome]
      unfold doOutcome
      rw [happly]
      dsimp only
      rw [if_neg hcond]
      rfl
    · rw [doOnce_outcome]
      unfold doOutcome
      rw [happly]
      dsimp only
      rw [if_neg hcond]
      rfl

/-- Witness for C6: a gzip-encoded 200 response decodes to the plain payload. -/
theorem gzip_transparent_roundtrip_witness :
    (clientPlain.doOnce "GET" ⟨[]⟩ "" []
        (.ok ⟨200, "200 OK", "gzip", gzipCompress "hello"⟩)).outcome = .ok "hello" ∧
    (clientPlain.doOnce "GET" ⟨[]⟩ "" []
        (.ok ⟨200, "200 OK", "", "hello"⟩)).outcome = .ok "hello" := by
  exact gzip_transparent_roundtrip.2.2 clientPlain "GET" ⟨[]⟩ "" [] 200 "200 OK"
    "hello" (initReq "GET" ⟨[]⟩ "") rfl (by decide)

theorem gzipDecode_error_shape (w : String) (e : GoError)
    (h : gzipDecode w = .error e) : e = .otherErr "gzip: invalid header" := by
  unfold gzipDecode at h
  split at h
  · exact absurd h (by simp)
  · simp only [Except.error.injEq] at h
    exact h.symm

/-- C8: once options applied successfully, the attempt's error is an
`HTTPError` exactly when the exchange produced a response with status outside
200-299: such a response yields the error carrying the observed status code
and text, a 2xx response never yields an `HTTPError` (whatever the body), and
a transport failure is returned as the transport's own error; the same holds
on the `DownloadFile` path. -/
theorem httpError_iff_non2xx :
    (∀ (c : Client) (m : String) (u : URL) (b : String) (opts : List RequestOption)
        (resp : Response) (req2 : Request),
      applyOptions (c.reqOpts ++ opts) (initReq m u b) = .ok req2 →
      (resp.statusCode < 200 ∨ 300 ≤ resp.statusCode) →
      (c.doOnce m u b opts (.ok resp)).outcome
        = .error (.httpErr resp.statusCode resp.status)) ∧
    (∀ (c : Client) (m : String) (u : URL) (b : String) (opts : List RequestOption)
        (resp : Response) (req2 : Request) (n : Nat) (s : String),
      applyOptions (c.reqOpts ++ opts) (initReq m u b) = .ok req2 →
      ¬ (resp.statusCode < 200 ∨ 300 ≤ resp.statusCode) →
      (c.doOnce m u b opts (.ok resp)).outcome ≠ .error (.httpErr n s)) ∧
    (∀ (c : Client) (m : String) (u : URL) (b : String) (opts : List RequestOption)
        (e : GoError) (req2 : Request),
      applyOptions (c.reqOpts ++ opts) (initReq m u b) = .ok req2 →
      (c.doOnce m u b opts (.error e)).outcome = .error e) ∧
    (∀ (c : Client) (u : URL) (opts : List RequestOption) (ce cpe : Option GoError)
        (resp : Response) (req2 : Request),
      applyOptions (c.reqOpts ++ opts) (initReq "GET" u "") = .ok req2 →
      (resp.statusCode < 200 ∨ 300 ≤ resp.statusCode) →
      (Client.DownloadFile c u opts (.ok resp) ce cpe).err
        = some (.httpErr resp.statusCode resp.status)) ∧
    (∀ (c : Client) (u : URL) (opts : List RequestOption) (ce cpe : Option GoError)
        (e : GoError) (req2 : Request),
      applyOptions (c.reqOpts ++ opts) (initReq "GET" u "") = .ok req2 →
      (Client.DownloadFile c u opts (.error e) ce cpe).err = some e) := by
  refine ⟨?_, ?_, ?_, ?_, ?_⟩
  · intro c m u b opts resp req2 happly hbad
    rw [doOnce_outcome]
    unfold doOutcome
    rw [happly]
    dsimp only
    rw [if_pos hbad]
  · intro c m u b opts resp req2 n s happly hgood
    rw [doOnce_outcome]
    unfold doOutcome
    rw [happly]
    dsimp only
    rw [if_neg hgood]
    by_cases hg : resp.contentEncoding = "gzip"
    · rw [if_pos hg]
      cases hd : gzipDecode resp.body with
      | error e =>
        have he := gzipDecode_error_shape resp.body e hd
        intro hcon
        simp only [Except.error.injEq] at hcon
        rw [he] at hcon
        exact GoError.noConfusion hcon
      | ok data =>
        intro hcon
        exact Except.noConfusion hcon
    · rw [if_neg hg]
      intro hcon
      exact Except.noConfusion hcon
  · intro c m u b opts e req2 happly
    rw [doOnce_outcome]
    unfold doOutcome
    rw [happly]
  · intro c u opts ce cpe resp req2 happly hbad
    simp only [initReq] at happly
    simp only [Client.DownloadFile, happly, if_pos hbad]
  · intro c u opts ce cpe e req2 happly
    simp only [initReq] at happly
    simp only [Client.DownloadFile, happly]

/-- Witness for C8: a 404 yields the HTTPError 404 with its text, a 200 does
not, and a transport error is passed through. -/
theorem httpError_iff_non2xx_witness :
    (clientPlain.doOnce "GET" ⟨[]⟩ "" [] (.ok ⟨404, "404 Not Found", "", ""⟩)).outcome
      = .error (.httpErr 404 "404 Not Found") ∧
    (clientPlain.doOnce "GET" ⟨[]⟩ "" [] (.ok ⟨200, "200 OK", "", "hi"⟩)).outcome
      ≠ .error (.httpErr 200 "200 OK") ∧
    (clientPlain.doOnce "GET" ⟨[]⟩ "" [] (.error (.netErr true "refused"))).outcome
      = .error (.netErr true "refused") := by
  refine ⟨?_, ?_, ?_⟩
  · exact httpError_iff_non2xx.1 clientPlain "GET" ⟨[]⟩ "" []
      ⟨404, "404 Not Found", "", ""⟩ (initReq "GET" ⟨[]⟩ "") rfl (by decide)
  · exact httpError_iff_non2xx.2.1 clientPlain "GET" ⟨[]⟩ "" []
      ⟨200, "200 OK", "", "hi"⟩ (initReq "GET" ⟨[]⟩ "") 200 "200 OK" rfl (by decide)
  · exact httpError_iff_non2xx.2.2.1 clientPlain "GET" ⟨[]⟩ "" []
      (.netErr true "refused") (initReq "GET" ⟨[]⟩ "") rfl

theorem find?_filter_append (h : Headers) (k v : String) :
    ((h.filter (fun kv => kv.1 != k)) ++ [(k, v)]).find? (fun kv => kv.1 == k)
      = some (k, v) := by
  induction h with
  | nil => simp
  | cons kv t ih =>
    cases hkk : kv.1 == k with
    | true =>
      have hb : (kv.1 != k) = false := by simp [bne, hkk]
      simp [List.filter_cons, hb]
    | false =>
      have hb : (kv.1 != k) = true := by simp [bne, hkk]
      simp [List.filter_cons, hb, List.find?_cons, hkk]

theorem headerGet_headerSet (h : Headers) (k v : String) :
    headerGet (headerSet h k v) k = some v := by
  unfold headerGet headerSet
  rw [find?_filter_append]
  rfl

theorem mem_insertByKey {p q : String × List String} {l : Values}
    (h : q ∈ insertByKey p l) : q = p ∨ q ∈ l := by
  induction l with
  | nil =>
    simp only [insertByKey, List.mem_singleton] at h
    exact Or.inl h
  | cons a t ih =>
    unfold insertByKey at h
    by_cases hle : p.1 ≤ a.1
    · rw [if_pos hle] at h
      simp only [List.mem_cons] at h
      rcases h with h | h | h
      · exact Or.inl h
      · exact Or.inr (by simp [List.mem_cons, h])
      · exact Or.inr (by simp [List.mem_cons, Or.inr h])
    · rw [if_neg hle] at h
      simp only [List.mem_cons] at h
      rcases h with h | h
      · exact Or.inr (by simp [List.mem_cons, h])
      · rcases ih h with h2 | h2
        · exact Or.inl h2
        · exact Or.inr (by simp [List.mem_cons, Or.inr h2])

theorem pairwise_insertByKey (p : String × List String) {l : Values}
    (h : l.Pairwise (fun a b => a.1 ≤ b.1)) :
    (insertByKey p l).Pairwise (fun a b => a.1 ≤ b.1) := by
  induction l with
  | nil => simp [insertByKey]
  | cons a t ih =>
    rcases List.pairwise_cons.mp h with ⟨ha, ht⟩
    unfold insertByKey
    by_cases hle : p.1 ≤ a.1
    · rw [if_pos hle]
      refine List.pairwise_cons.mpr ⟨?_, h⟩
      intro b hb
      rcases List.mem_cons.mp hb with rfl | hbt
      · exact hle
      · exact le_trans hle (ha b hbt)
    · rw [if_neg hle]
      have hpa : a.1 ≤ p.1 := le_of_not_le hle
      refine List.pairwise_cons.mpr ⟨?_, ih ht⟩
      intro b hb
      rcases mem_insertByKey hb with rfl | hbt
      · exact hpa
      · exact ha b hbt

theorem pairwise_sortByKey (q : Values) :
    (sortByKey q).Pairwise (fun a b => a.1 ≤ b.1) := by
  unfold sortByKey
  induction q with
  | nil => simp
  | cons a t ih => exact pairwise_insertByKey a ih

theorem pairwise_const_key (k : String) (vs : List String) :
    (vs.map (fun v => (k, v))).Pairwise
      (fun (a b : String × String) => a.1 ≤ b.1) := by
  rw [List.pairwise_map]
  induction vs with
  | nil => exact List.Pairwise.nil
  | cons v t ih => exact List.Pairwise.cons (fun b _ => le_refl k) ih

theorem pairwise_valuesEncode (q : Values) :
    (valuesEncode q).Pairwise (fun a b => a.1 ≤ b.1) := by
  unfold valuesEncode
  rw [List.pairwise_flatten]
  refine ⟨?_, ?_⟩
  · intro l' hl'
    rcases List.mem_map.mp hl' with ⟨kv, _, rfl⟩
    exact pairwise_const_key kv.1 kv.2
  · rw [List.pairwise_map]
    refine (pairwise_sortByKey q).imp ?_
    intro a bb hle x hx y hy
    rcases List.mem_map.mp hx with ⟨v1, _, rfl⟩
    rcases List.mem_map.mp hy with ⟨v2, _, rfl⟩
    exact hle

/-- C7: options apply in the given order with the client defaults applied
before the per-call options (`applyOptions` splits over concatenation, and the
request `do` hands to the transport is the per-call options applied after the
defaults); a later `SetHeader` with the same key overwrites the earlier value;
two `SetQuery` options accumulate: `a=1` then `a=2` yields the query holding
both pairs, not just the last; and every re-encoded query is deterministic,
sorted by key. -/
theorem option_order_and_semantics :
    (∀ (l1 l2 : List RequestOption) (req : Request),
      applyOptions (l1 ++ l2) req
        = match applyOptions l1 req with
          | .error e => .error e
          | .ok r => applyOptions l2 r) ∧
    (∀ (c : Client) (m : String) (u : URL) (b : String) (opts : List RequestOption)
        (t : TransportResult),
      (c.doOnce m u b opts t).sent
        = match applyOptions c.reqOpts (initReq m u b) with
          | .error _ => none
          | .ok r1 =>
            match applyOptions opts r1 with
            | .error _ => none
            | .ok r2 => some r2) ∧
    (∀ (req : Request) (k v1 v2 : String),
      applyOptions [SetHeader k v1, SetHeader k v2] req
        = .ok { req with headers := headerSet (headerSet req.headers k v1) k v2 } ∧
      headerGet (headerSet (headerSet req.headers k v1) k v2) k = some v2) ∧
    (∀ (m : String) (hdr : Headers) (b : String),
      applyOptions [SetQuery [("a", ["1"])], SetQuery [("a", ["2"])]]
          { method := m, url := ⟨[]⟩, headers := hdr, body := b }
        = .ok { method := m, url := ⟨[("a", "1"), ("a", "2")]⟩,
                headers := hdr, body := b }) ∧
    (∀ q : Values, (valuesEncode q).Pairwise (fun a b => a.1 ≤ b.1)) := by
  refine ⟨applyOptions_append, ?_, ?_, ?_, pairwise_valuesEncode⟩
  · intro c m u b opts t
    rw [doOnce_sent, applyOptions_append]
    cases applyOptions c.reqOpts (initReq m u b) with
    | error e => rfl
    | ok r1 => cases applyOptions opts r1 <;> rfl
  · intro req k v1 v2
    exact ⟨rfl, headerGet_headerSet (headerSet req.headers k v1) k v2⟩
  · intro m hdr b
    rfl

theorem codecDo_ok_body {α β : Type} (enc : α → Except GoError String)
    (dec : String → Except GoError β) (ctOpt : RequestOption) (c : Client)
    (m : String) (u : URL) (v : α) (hasResult : Bool) (opts : List RequestOption)
    (transport : Transport) (s : String) (henc : enc v = .ok s) :
    codecDo enc dec ctOpt c m u (some v) hasResult opts transport
      = (match (c.Do m u s (opts ++ [ctOpt]) transport).err with
         | some e =>
           ⟨(c.Do m u s (opts ++ [ctOpt]) transport).client, .error e,
             (c.Do m u s (opts ++ [ctOpt]) transport).attempts,
             (c.Do m u s (opts ++ [ctOpt]) transport).transportCalls⟩
         | none =>
           if hasResult && (c.Do m u s (opts ++ [ctOpt]) transport).result != "" then
             match dec (c.Do m u s (opts ++ [ctOpt]) transport).result with
             | .error e =>
               ⟨(c.Do m u s (opts ++ [ctOpt]) transport).client, .error e,
                 (c.Do m u s (opts ++ [ctOpt]) transport).attempts,
                 (c.Do m u s (opts ++ [ctOpt]) transport).transportCalls⟩
             | .ok bv =>
               ⟨(c.Do m u s (opts ++ [ctOpt]) transport).client, .ok (some bv),
                 (c.Do m u s (opts ++ [ctOpt]) transport).attempts,
                 (c.Do m u s (opts ++ [ctOpt]) transport).transportCalls⟩
           else
             ⟨(c.Do m u s (opts ++ [ctOpt]) transport).client, .ok none,
               (c.Do m u s (opts ++ [ctOpt]) transport).attempts,
               (c.Do m u s (opts ++ [ctOpt]) transport).transportCalls⟩) := by
  simp only [codecDo, henc]

/-- C9: through the codec wrappers (JSON and XML are the same code up to the
codec and the forced content-type option): a marshalling failure is returned
at once with zero `do` invocations and zero network exchanges; with a
marshalled body (or `""` for a nil body) the wrapper delegates to the
byte-oriented `Do` with the content-type option appended after the caller's
options, so every dispatched request carries the wrapper's Content-Type; a
`Do` failure is returned with no unmarshalling; on `Do` success unmarshalling
into the target happens exactly when a target is present and the response
string is non-empty, an unmarshal failure becoming the call's error. -/
theorem codec_wrapper_pipeline :
    (∀ (α β : Type) (enc : α → Except GoError String) (dec : String → Except GoError β)
        (ctOpt : RequestOption) (c : Client) (m : String) (u : URL) (v : α)
        (hasResult : Bool) (opts : List RequestOption) (transport : Transport)
        (e : GoError),
      enc v = .error e →
      codecDo enc dec ctOpt c m u (some v) hasResult opts transport
        = ⟨c, .error e, 0, 0⟩) ∧
    (∀ (α β : Type) (enc : α → Except GoError String) (dec : String → Except GoError β)
        (ctOpt : RequestOption) (c : Client) (m : String) (u : URL) (v : α)
        (hasResult : Bool) (opts : List RequestOption) (transport : Transport)
        (s : String),
      enc v = .ok s →
      (codecDo enc dec ctOpt c m u (some v) hasResult opts transport).attempts
        = (c.Do m u s (opts ++ [ctOpt]) transport).attempts ∧
      (codecDo enc dec ctOpt c m u (some v) hasResult opts transport).transportCalls
        = (c.Do m u s (opts ++ [ctOpt]) transport).transportCalls ∧
      (∀ e2 : GoError, (c.Do m u s (opts ++ [ctOpt]) transport).err = some e2 →
        (codecDo enc dec ctOpt c m u (some v) hasResult opts transport).decoded
          = .error e2) ∧
      ((c.Do m u s (opts ++ [ctOpt]) transport).err = none →
        (hasResult = false ∨ (c.Do m u s (opts ++ [ctOpt]) transport).result = "") →
        (codecDo enc dec ctOpt c m u (some v) hasResult opts transport).decoded
          = .ok none) ∧
      (∀ bv : β, (c.Do m u s (opts ++ [ctOpt]) transport).err = none →
        hasResult = true →
        (c.Do m u s (opts ++ [ctOpt]) transport).result ≠ "" →
        dec (c.Do m u s (opts ++ [ctOpt]) transport).result = .ok bv →
        (codecDo enc dec ctOpt c m u (some v) hasResult opts transport).decoded
          = .ok (some bv)) ∧
      (∀ e2 : GoError, (c.Do m u s (opts ++ [ctOpt]) transport).err = none →
        hasResult = true →
        (c.Do m u s (opts ++ [ctOpt]) transport).result ≠ "" →
        dec (c.Do m u s (opts ++ [ctOpt]) transport).result = .error e2 →
        (codecDo enc dec ctOpt c m u (some v) hasResult opts transport).decoded
          = .error e2)) ∧
    (∀ (α β : Type) (enc : α → Except GoError String) (dec : String → Except GoError β)
        (ctOpt : RequestOption) (c : Client) (m : String) (u : URL)
        (hasResult : Bool) (opts : List RequestOption) (transport : Transport),
      (codecDo enc dec ctOpt c m u (none : Option α) hasResult opts transport).attempts
        = (c.Do m u "" (opts ++ [ctOpt]) transport).attempts ∧
      (codecDo enc dec ctOpt c m u (none : Option α) hasResult opts transport).transportCalls
        = (c.Do m u "" (opts ++ [ctOpt]) transport).transportCalls) ∧
    (∀ (α β : Type) (enc : α → Except GoError String) (dec : String → Except GoError β)
        (c : Client) (m : String) (u : URL) (body : Option α) (hasResult : Bool)
        (opts : List RequestOption) (transport : Transport),
      JSONClient.Do enc dec c m u body hasResult opts transport
        = codecDo enc dec SetTypeJSON c m u body hasResult opts transport ∧
      XMLClient.Do enc dec c m u body hasResult opts transport
        = codecDo enc dec SetTypeXML c m u body hasResult opts transport) ∧
    (∀ (c : Client) (m : String) (u : URL) (s : String) (opts : List RequestOption)
        (t : TransportResult) (r : Request),
      (c.doOnce m u s (opts ++ [SetTypeJSON]) t).sent = some r →
      headerGet r.headers "Content-Type" = some "application/json; charset=UTF-8") ∧
    (∀ (c : Client) (m : String) (u : URL) (s : String) (opts : List RequestOption)
        (t : TransportResult) (r : Request),
      (c.doOnce m u s (opts ++ [SetTypeXML]) t).sent = some r →
      headerGet r.headers "Content-Type" = some "application/xml; charset=UTF-8") := by
  have hct : ∀ (ctv : String) (c : Client) (m : String) (u : URL) (s : String)
      (opts : List RequestOption) (t : TransportResult) (r : Request),
      (c.doOnce m u s (opts ++ [SetHeader "Content-Type" ctv]) t).sent = some r →
      headerGet r.headers "Content-Type" = some ctv := by
    intro ctv c m u s opts t r hsent
    rw [doOnce_sent] at hsent
    cases happly : applyOptions (c.reqOpts ++ (opts ++ [SetHeader "Content-Type" ctv]))
        (initReq m u s) with
    | error e =>
      rw [happly] at hsent
      exact Option.noConfusion hsent
    | ok r2 =>
      rw [happly] at hsent
      injection hsent with h2
      subst h2
      rw [← List.append_assoc, applyOptions_append] at happly
      cases h1 : applyOptions (c.reqOpts ++ opts) (initReq m u s) with
      | error e =>
        rw [h1] at happly
        exact Except.noConfusion happly
      | ok r1 =>
        rw [h1] at happly
        simp only [applyOptions, SetHeader] at happly
        injection happly with h2
        rw [← h2]
        exact headerGet_headerSet r1.headers "Content-Type" ctv
  refine ⟨?_, ?_, ?_, ?_, hct "application/json; charset=UTF-8",
    hct "application/xml; charset=UTF-8"⟩
  · intro α β enc dec ctOpt c m u v hasResult opts transport e henc
    simp only [codecDo, henc]
  · intro α β enc dec ctOpt c m u v hasResult opts transport s henc
    rw [codecDo_ok_body enc dec ctOpt c m u v hasResult opts transport s henc]
    cases hde : (c.Do m u s (opts ++ [ctOpt]) transport).err with
    | some e2 =>
      refine ⟨by trivial, by trivial, ?_, ?_, ?_, ?_⟩
      · intro e3 h
        injection h with h3
        subst h3
        trivial
      · intro h
        exact Option.noConfusion h
      · intro bv h
        exact Option.noConfusion h
      · intro e3 h
        exact Option.noConfusion h
    | none =>
      cases hres : (hasResult && (c.Do m u s (opts ++ [ctOpt]) transport).result != "") with
      | false =>
        simp only [hres, Bool.false_eq_true, if_false]
        refine ⟨by trivial, by trivial, ?_, ?_, ?_, ?_⟩
        · intro e3 h
          exact Option.noConfusion h
        · intro _ _
          trivial
        · intro bv _ hhr hne _
          rw [hhr, Bool.true_and] at hres
          have hempty : (c.Do m u s (opts ++ [ctOpt]) transport).result = "" := by
            simpa using hres
          exact absurd hempty hne
        · intro e3 _ hhr hne _
          rw [hhr, Bool.true_and] at hres
          have hempty : (c.Do m u s (opts ++ [ctOpt]) transport).result = "" := by
            simpa using hres
          exact absurd hempty hne
      | true =>
        simp only [hres, if_true]
        refine ⟨?_, ?_, ?_, ?_, ?_, ?_⟩
        · cases dec (c.Do m u s (opts ++ [ctOpt]) transport).result <;> trivial
        · cases dec (c.Do m u s (opts ++ [ctOpt]) transport).result <;> trivial
        · intro e3 h
          exact Option.noConfusion h
        · intro _ hor
          rcases hor with hor | hor
          · rw [hor] at hres
            simp at hres
          · rw [hor] at hres
            simp at hres
        · intro bv _ _ _ hdec
          rw [hdec]
        · intro e3 _ _ _ hdec
          rw [hdec]
  · intro α β enc dec ctOpt c m u hasResult opts transport
    simp only [codecDo]
    cases hde : (c.Do m u "" (opts ++ [ctOpt]) transport).err with
    | some e2 => exact ⟨by trivial, by trivial⟩
    | none =>
      cases hres : (hasResult && (c.Do m u "" (opts ++ [ctOpt]) transport).result != "") with
      | false =>
        simp only [hres, Bool.false_eq_true, if_false]
        exact ⟨by trivial, by trivial⟩
      | true =>
        simp only [hres, if_true]
        cases dec (c.Do m u "" (opts ++ [ctOpt]) transport).result <;>
          exact ⟨by trivial, by trivial⟩
  · intro α β enc dec c m u body hasResult opts transport
    exact ⟨rfl, rfl⟩

/-- The network oracle answering 200 with body "abc" on every exchange. -/
def transportBody : Transport :=
  fun _ => .ok ⟨200, "200 OK", "", "abc"⟩

/-- Witness for C9: a failing marshal is returned with zero attempts and zero
exchanges; on a successful call with a result target and a non-empty body the
decoded value is returned. -/
theorem codec_wrapper_pipeline_witness :
    codecDo (fun _ : Nat => (.error (.otherErr "marshal fail") : Except GoError String))
        (fun s => (.ok s.length : Except GoError Nat)) SetTypeJSON clientPlain "POST"
        ⟨[]⟩ (some 1) true [] transport404
      = ⟨clientPlain, .error (.otherErr "marshal fail"), 0, 0⟩ ∧
    (codecDo (fun _ : Nat => (.ok "1" : Except GoError String))
        (fun s => (.ok s.length : Except GoError Nat)) SetTypeJSON clientPlain "POST"
        ⟨[]⟩ (some 1) true [] transportBody).decoded = .ok (some 3) := by
  constructor
  · exact codec_wrapper_pipeline.1 Nat Nat _ _ SetTypeJSON clientPlain "POST" ⟨[]⟩ 1
      true [] transport404 (.otherErr "marshal fail") rfl
  · exact (codec_wrapper_pipeline.2.1 Nat Nat _ _ SetTypeJSON clientPlain "POST" ⟨[]⟩ 1
      true [] transportBody "1" rfl).2.2.2.2.1 3 (by decide) rfl (by decide) rfl

end HttpClient
